import Mathlib

/-!
Verification of the "watch together" session-synchronization relay of the
MovieApp repository.

Server side (`server.js`): rooms are held in a process-global object
`rooms = { roomCode: { hostId, clients: { clientId: { ws, username } } } }`.
JavaScript objects with (non-index-like) string keys preserve insertion
order, so both `rooms` and each room's `clients` are modelled as
insertion-ordered association lists; JS property assignment replaces the
value in place when the key exists (keeping its position) and appends
otherwise, and `delete` removes the key.  Each WebSocket connection is
modelled by a numeric handle carrying the `ws._room` / `ws._clientId`
fields the server attaches, plus an open/closed flag standing for
`readyState === OPEN`.  Handlers return the updated state together with
the ordered list of messages sent (target connection, payload).

Client side (`SyncWatcher/[id]/[code]/page.tsx`): the `start`-message
countdown (`tickFn` and the interval timer around it) is modelled as a
pure step function over the tick instants.
-/

namespace SyncRelay

/-- Insertion-ordered association-list lookup (JS property read). -/
def lookupAssoc {κ α : Type} [DecidableEq κ] : List (κ × α) → κ → Option α
  | [], _ => none
  | (k', v') :: t, k => if k' = k then some v' else lookupAssoc t k

/-- JS property assignment: replace in place if the key exists (keeping its
position in insertion order), append otherwise. -/
def insertAssoc {κ α : Type} [DecidableEq κ] : List (κ × α) → κ → α → List (κ × α)
  | [], k, v => [(k, v)]
  | (k', v') :: t, k, v => if k' = k then (k, v) :: t else (k', v') :: insertAssoc t k v

/-- JS `delete obj[k]`: remove the entry for `k` (keys are unique in a JS
object, so removing the first occurrence suffices). -/
def eraseAssoc {κ α : Type} [DecidableEq κ] : List (κ × α) → κ → List (κ × α)
  | [], _ => []
  | (k', v') :: t, k => if k' = k then t else (k', v') :: eraseAssoc t k

/-- JS truthiness of a possibly-absent string value (`null`/`undefined` and
`""` are falsy). -/
def truthyS : Option String → Bool
  | none => false
  | some s => s ≠ ""

/-- JS `x || null` on a possibly-absent string: empty string collapses to
null. -/
def jsOrNull : Option String → Option String
  | none => none
  | some s => if s = "" then none else some s

/-- One entry of a room's `clients` object: the connection handle (`ws`)
and the display name. -/
structure ClientInfo where
  conn : Nat
  username : String
deriving DecidableEq

/-- A room record: `{ hostId, clients }`. -/
structure Room where
  hostId : Option String
  clients : List (String × ClientInfo)
deriving DecidableEq

/-- The per-connection fields the server keeps on the socket object:
`ws._room`, `ws._clientId`, and whether `readyState === OPEN`. -/
structure ConnState where
  room : Option String
  clientId : Option String
  isOpen : Bool
deriving DecidableEq

/-- Whole-server state: the `rooms` registry plus the connection table. -/
structure ServerState where
  rooms : List (String × Room)
  conns : List (Nat × ConnState)
deriving DecidableEq

/-- A parsed inbound frame.  `none` in a field means the property is absent
(or `null`); the modelled fields are the ones the server and client read. -/
structure Frame where
  type : Option String
  room : Option String
  clientId : Option String
  username : Option String
  startAt : Option Int
  season : Option String
  episode : Option Int
  time : Option Int
deriving DecidableEq

/-- A frame with every field absent; concrete frames override fields. -/
def emptyFrame : Frame :=
  { type := none, room := none, clientId := none, username := none,
    startAt := none, season := none, episode := none, time := none }

/-- Server-to-client messages. -/
inductive OutMsg where
  | host (isHost : Bool)
  | userJoined (clientId username : String)
  | userLeft (clientId : String)
  | presence (participants : List (String × String)) (hostId : Option String)
  | forward (f : Frame)
deriving DecidableEq

/-- One send: target connection handle and payload. -/
abbrev Send := Nat × OutMsg

/-- The connection fields for a handle, with the fresh-connection default
(`ws._room = null`, `ws._clientId = null`, socket open). -/
def getConn (s : ServerState) (c : Nat) : ConnState :=
  (lookupAssoc s.conns c).getD ({ room := none, clientId := none, isOpen := true })

/-- `ws._room = room; ws._clientId = clientId` for connection `c`. -/
def setConn (s : ServerState) (c : Nat) (room clientId : String) : ServerState :=
  let cst := { getConn s c with room := some room, clientId := some clientId }
  { s with conns := insertAssoc s.conns c cst }

/-- The socket of `c` leaves the OPEN state. -/
def markClosed (s : ServerState) (c : Nat) : ServerState :=
  { s with conns := insertAssoc s.conns c ({ getConn s c with isOpen := false }) }

/-- `broadcastToRoom(room, obj, exceptClientId)`: send `obj` to every
member of the room whose key differs from `exceptClientId` and whose
socket is OPEN (`exceptClientId = null` excludes nobody, as `cid === null`
is false for every string key). -/
def broadcastToRoom (s : ServerState) (room : String) (obj : OutMsg)
    (exceptClientId : Option String) : List Send :=
  match lookupAssoc s.rooms room with
  | none => []
  | some r =>
      r.clients.filterMap (fun p =>
        if some p.1 = exceptClientId then none
        else if (getConn s p.2.conn).isOpen then some (p.2.conn, obj) else none)

/-- The `participants` array of a presence message:
`{clientId, username: info.username || "Anon"}` in insertion order. -/
def snapshotParticipants (r : Room) : List (String × String) :=
  r.clients.map (fun p => (p.1, if p.2.username = "" then "Anon" else p.2.username))

/-- `sendPresence(room)`: broadcast the full snapshot (participants plus
`hostId || null`) to every member with an OPEN socket, nobody excluded. -/
def presenceSends (s : ServerState) (room : String) : List Send :=
  match lookupAssoc s.rooms room with
  | none => []
  | some r =>
      let msg := OutMsg.presence (snapshotParticipants r) (jsOrNull r.hostId)
      r.clients.filterMap (fun p =>
        if (getConn s p.2.conn).isOpen then some (p.2.conn, msg) else none)

/-- `String(data.username || ("User-" + clientId.slice(0,4)))`. -/
def joinUsername (u : Option String) (clientId : String) : String :=
  match u with
  | some s => if s = "" then "User-" ++ clientId.take 4 else s
  | none => "User-" ++ clientId.take 4

/-- The registry mutation of a join: create the room lazily
(`if (!rooms[room]) rooms[room] = { hostId: null, clients: {} }`), add or
overwrite the member entry, and assign the host if the slot is falsy
(`if (!rooms[room].hostId) rooms[room].hostId = clientId`). -/
def joinedRoom (s : ServerState) (c : Nat) (room clientId username : String) : Room :=
  let r0 := (lookupAssoc s.rooms room).getD ({ hostId := none, clients := [] })
  let r1 : Room := { r0 with
    clients := insertAssoc r0.clients clientId { conn := c, username := username } }
  if truthyS r1.hostId then r1 else { r1 with hostId := some clientId }

/-- The `join` branch of the message handler (guards already checked by the
dispatcher): record `ws._room`/`ws._clientId`, apply the registry mutation,
reply `host` to the sender, broadcast `user-joined` to the others, then
broadcast the fresh presence snapshot to everyone. -/
def handleJoin (s : ServerState) (c : Nat) (data : Frame) : ServerState × List Send :=
  let room := data.room.getD ""
  let clientId := data.clientId.getD ""
  let username := joinUsername data.username clientId
  let s1 := setConn s c room clientId
  let r2 : Room := joinedRoom s1 c room clientId username
  let s2 : ServerState := { s1 with rooms := insertAssoc s1.rooms room r2 }
  let selfReply : Send := (c, OutMsg.host (decide (r2.hostId = some clientId)))
  (s2, selfReply ::
    (broadcastToRoom s2 room (OutMsg.userJoined clientId username) (some clientId)
      ++ presenceSends s2 room))

/-- The `presence:get` branch: reply to the sender only, with the current
snapshot, or with an empty participant list and null host when the room is
unknown. -/
def handlePresenceGet (s : ServerState) (c : Nat) (data : Frame) : ServerState × List Send :=
  let room := data.room.getD ""
  match lookupAssoc s.rooms room with
  | some r =>
      (s, [(c, OutMsg.presence (snapshotParticipants r) (jsOrNull r.hostId))])
  | none =>
      (s, [(c, OutMsg.presence [] none)])

/-- The transport-command types relayed without interpretation. -/
def transportTypes : List String := ["start", "reload", "play", "pause", "seek"]

/-- The `message` handler: parse failure or a falsy `type` drops the frame;
`join` and `presence:get` need their truthy fields; everything else
requires the connection to have a truthy `ws._room` naming an existing
room; transport commands are re-broadcast with the sender's registered
`clientId` overriding whatever the frame carried
(`Object.assign({}, data, { clientId })`), excluding the sender; all other
frames are only logged. -/
def handleMessage (s : ServerState) (c : Nat) (fr : Option Frame) : ServerState × List Send :=
  match fr with
  | none => (s, [])
  | some data =>
      if truthyS data.type = true then
        if data.type = some "join" ∧ truthyS data.room = true ∧ truthyS data.clientId = true then
          handleJoin s c data
        else if data.type = some "presence:get" ∧ truthyS data.room = true then
          handlePresenceGet s c data
        else
          let conn := getConn s c
          if truthyS conn.room = true ∧ (lookupAssoc s.rooms (conn.room.getD "")).isSome = true then
            if (data.type.getD "") ∈ transportTypes then
              (s, broadcastToRoom s (conn.room.getD "")
                    (OutMsg.forward { data with clientId := conn.clientId }) conn.clientId)
            else (s, [])
          else (s, [])
      else (s, [])

/-- The `close` handler: the socket leaves OPEN; if the connection had
joined an existing room, its member entry is deleted and `user-left`
broadcast; if the departed member was host, the first remaining key (or
null) becomes host — on success `host:false` is broadcast to the room and
`host:true` sent directly to the new host's socket, on null the room is
deleted and the handler returns early; finally (when the room survived)
the updated presence snapshot is broadcast. -/
def handleClose (s : ServerState) (c : Nat) : ServerState × List Send :=
  let conn := getConn s c
  let s0 := markClosed s c
  if truthyS conn.room = true then
    match lookupAssoc s0.rooms (conn.room.getD "") with
    | none => (s0, [])
    | some r =>
        let room := conn.room.getD ""
        let clientId := conn.clientId.getD ""
        let r1 : Room := { r with clients := eraseAssoc r.clients clientId }
        let s1 : ServerState := { s0 with rooms := insertAssoc s0.rooms room r1 }
        let leftSends := broadcastToRoom s1 room (OutMsg.userLeft clientId) (some clientId)
        if r1.hostId = some clientId then
          match jsOrNull (r1.clients.map Prod.fst).head? with
          | some newHost =>
              let r2 : Room := { r1 with hostId := some newHost }
              let s2 : ServerState := { s1 with rooms := insertAssoc s1.rooms room r2 }
              let hostTrue : List Send :=
                match lookupAssoc r2.clients newHost with
                | some info => [(info.conn, OutMsg.host true)]
                | none => []
              (s2, leftSends ++ broadcastToRoom s2 room (OutMsg.host false) none
                    ++ hostTrue ++ presenceSends s2 room)
          | none =>
              ({ s1 with rooms := eraseAssoc s1.rooms room }, leftSends)
        else
          (s1, leftSends ++ presenceSends s1 room)
  else (s0, [])

/-- Externally visible events: an inbound frame on a connection (`none`
standing for unparseable text) or the transport closing.  A frame can only
arrive on a socket that is still open; a socket closes once. -/
inductive Event where
  | msg (c : Nat) (fr : Option Frame)
  | close (c : Nat)
deriving DecidableEq

/-- One event step: dispatch to the matching handler; events on a closed
socket cannot occur and are absorbed. -/
def step (s : ServerState) (e : Event) : ServerState × List Send :=
  match e with
  | .msg c fr => if (getConn s c).isOpen then handleMessage s c fr else (s, [])
  | .close c => if (getConn s c).isOpen then handleClose s c else (s, [])

/-- The server starts with no rooms and no connections. -/
def initState : ServerState := { rooms := [], conns := [] }

/-- Run a sequence of events from a state, keeping only the state. -/
def applyEvents (s : ServerState) (es : List Event) : ServerState :=
  es.foldl (fun s e => (step s e).1) s

/-- Run a sequence of events from server start-up. -/
def runEvents (es : List Event) : ServerState := applyEvents initState es

/-- The frame of a well-formed `join` message. -/
def joinFrame (room clientId username : String) : Frame :=
  { emptyFrame with
    type := some "join"
    room := some room
    clientId := some clientId
    username := some username }

/-- The event of a well-formed `join` message arriving on connection `c`. -/
def joinEv (room : String) (j : Nat × String × String) : Event :=
  .msg j.1 (some (joinFrame room j.2.1 j.2.2))

/-- The frame of a `presence:get` request. -/
def presenceGetFrame (room : String) : Frame :=
  { emptyFrame with type := some "presence:get", room := some room }

end SyncRelay

namespace SyncClient

/-- `Math.ceil(d / 1000)` for an integer number of milliseconds `d`
(millisecond differences are far below the magnitude where IEEE doubles
lose integer precision, so real ceiling division is exact). -/
def jsCeil1000 (d : Int) : Int := -((-d) / 1000)

/-- The client-local countdown state around `tickFn`: whether
`startTimerRef.current` currently holds an installed interval, the
displayed `countdown` value in seconds (`null` when cleared), and the
instants at which the player-reload action has fired. -/
structure SyncState where
  timer : Bool
  countdown : Option Int
  reloads : List Int
deriving DecidableEq

/-- One execution of `tickFn` at instant `t`:
`left = Math.max(0, Math.ceil((startAt - Date.now())/1000))` is displayed;
at `left <= 0` the iframe source is replaced (recorded as a reload at `t`),
the display cleared, and the interval cleared.  The clear is guarded by
`if (startTimerRef.current)`: it does nothing exactly when the ref is
already null, so after a firing call the ref is null either way — but
nothing here stops an interval that has not been installed yet. -/
def tickFn (startAt t : Int) (st : SyncState) : SyncState :=
  let left := max 0 (jsCeil1000 (startAt - t))
  if left ≤ 0 then
    { timer := false, countdown := none, reloads := st.reloads ++ [t] }
  else
    { st with countdown := some left }

/-- The interval installed by `setInterval(tickFn, 500)`: one callback per
instant of `ts`, each running only while the interval is still
installed. -/
def runInterval (startAt : Int) (ts : List Int) (st : SyncState) : SyncState :=
  ts.foldl (fun st t => if st.timer then tickFn startAt t st else st) st

/-- Handling of an accepted `start`: clear any previous timer (the ref
becomes null), call `tickFn()` once immediately at the receipt instant
`t0` — while the ref is still null, so a zero-crossing in this call can
clear nothing — and only afterwards install the interval,
unconditionally, with callbacks at the instants `ts`. -/
def runStart (startAt t0 : Int) (ts : List Int) : SyncState :=
  let st1 := tickFn startAt t0 { timer := false, countdown := none, reloads := [] }
  runInterval startAt ts { st1 with timer := true }

end SyncClient

namespace SyncRelay

variable {κ α : Type} [DecidableEq κ]

theorem lookupAssoc_insertAssoc_self (l : List (κ × α)) (k : κ) (v : α) :
    lookupAssoc (insertAssoc l k v) k = some v := by
  induction l with
  | nil => simp [insertAssoc, lookupAssoc]
  | cons p t ih =>
      by_cases h : p.1 = k
      · simp [insertAssoc, lookupAssoc, h]
      · simpa [insertAssoc, lookupAssoc, h] using ih

theorem lookupAssoc_insertAssoc_ne (l : List (κ × α)) (k k' : κ) (v : α) (h : k' ≠ k) :
    lookupAssoc (insertAssoc l k v) k' = lookupAssoc l k' := by
  induction l with
  | nil => simp [insertAssoc, lookupAssoc, Ne.symm h]
  | cons p t ih =>
      by_cases hk : p.1 = k
      · simp [insertAssoc, lookupAssoc, hk, Ne.symm h]
      · by_cases hk' : p.1 = k' <;> simp [insertAssoc, lookupAssoc, hk, hk', ih, h, Ne.symm h]

theorem mem_insertAssoc {l : List (κ × α)} {k : κ} {v : α} {p : κ × α}
    (h : p ∈ insertAssoc l k v) : p = (k, v) ∨ p ∈ l := by
  induction l with
  | nil => simpa [insertAssoc] using h
  | cons q t ih =>
      by_cases hk : q.1 = k
      · rcases (by simpa [insertAssoc, hk] using h) with h' | h'
        · exact Or.inl h'
        · exact Or.inr (List.mem_cons_of_mem q h')
      · rcases (by simpa [insertAssoc, hk] using h) with h' | h'
        · exact Or.inr (by simp [h'])
        · rcases ih h' with h'' | h''
          · exact Or.inl h''
          · exact Or.inr (List.mem_cons_of_mem q h'')

theorem map_fst_insertAssoc (l : List (κ × α)) (k : κ) (v : α) :
    (insertAssoc l k v).map Prod.fst =
      if k ∈ l.map Prod.fst then l.map Prod.fst else l.map Prod.fst ++ [k] := by
  induction l with
  | nil => simp [insertAssoc]
  | cons q t ih =>
      by_cases hk : q.1 = k
      · simp [insertAssoc, hk]
      · by_cases hm : k ∈ t.map Prod.fst <;>
          simp [insertAssoc, hk, hm, ih, Ne.symm hk]

theorem mem_keys_insertAssoc {l : List (κ × α)} {k a : κ} {v : α}
    (h : a ∈ l.map Prod.fst) : a ∈ (insertAssoc l k v).map Prod.fst := by
  rw [map_fst_insertAssoc]
  by_cases hm : k ∈ l.map Prod.fst <;> simp [hm, h]

theorem nodup_keys_insertAssoc {l : List (κ × α)} {k : κ} {v : α}
    (h : (l.map Prod.fst).Nodup) : ((insertAssoc l k v).map Prod.fst).Nodup := by
  rw [map_fst_insertAssoc]
  by_cases hm : k ∈ l.map Prod.fst
  · simpa [hm] using h
  · simp only [hm, if_false]
    exact h.append (List.nodup_singleton k) (List.disjoint_singleton.mpr hm)

theorem map_fst_eraseAssoc_sublist (l : List (κ × α)) (k : κ) :
    List.Sublist ((eraseAssoc l k).map Prod.fst) (l.map Prod.fst) := by
  induction l with
  | nil => simp [eraseAssoc]
  | cons q t ih =>
      by_cases hk : q.1 = k
      · simpa [eraseAssoc, hk] using (List.sublist_cons_self q.1 (t.map Prod.fst))
      · simpa [eraseAssoc, hk] using ih.cons₂ q.1

theorem nodup_keys_eraseAssoc {l : List (κ × α)} {k : κ}
    (h : (l.map Prod.fst).Nodup) : ((eraseAssoc l k).map Prod.fst).Nodup :=
  h.sublist (map_fst_eraseAssoc_sublist l k)

theorem mem_of_mem_eraseAssoc {l : List (κ × α)} {k : κ} {p : κ × α}
    (h : p ∈ eraseAssoc l k) : p ∈ l := by
  induction l with
  | nil => simpa [eraseAssoc] using h
  | cons q t ih =>
      by_cases hk : q.1 = k
      · exact List.mem_cons_of_mem q (by simpa [eraseAssoc, hk] using h)
      · rcases (by simpa [eraseAssoc, hk] using h) with h' | h'
        · simp [h']
        · exact List.mem_cons_of_mem q (ih h')

theorem mem_eraseAssoc_of_ne {l : List (κ × α)} {k : κ} {p : κ × α}
    (hp : p ∈ l) (hne : p.1 ≠ k) : p ∈ eraseAssoc l k := by
  induction l with
  | nil => simp at hp
  | cons q t ih =>
      by_cases hk : q.1 = k
      · rcases List.mem_cons.mp hp with hp | hp
        · exact absurd (hp ▸ hk) hne
        · simpa [eraseAssoc, hk] using hp
      · rcases List.mem_cons.mp hp with hp | hp
        · simp [eraseAssoc, hk, hp]
        · simpa [eraseAssoc, hk] using List.mem_cons_of_mem q (ih hp)

theorem lookupAssoc_eq_none_of_not_mem {l : List (κ × α)} {k : κ}
    (h : k ∉ l.map Prod.fst) : lookupAssoc l k = none := by
  induction l with
  | nil => simp [lookupAssoc]
  | cons q t ih =>
      simp only [List.map_cons, List.mem_cons] at h
      push_neg at h
      simp [lookupAssoc, Ne.symm h.1, ih h.2]

theorem lookupAssoc_eraseAssoc_self {l : List (κ × α)} {k : κ}
    (h : (l.map Prod.fst).Nodup) : lookupAssoc (eraseAssoc l k) k = none := by
  induction l with
  | nil => simp [eraseAssoc, lookupAssoc]
  | cons q t ih =>
      simp only [List.map_cons, List.nodup_cons] at h
      by_cases hk : q.1 = k
      · simpa [eraseAssoc, hk] using lookupAssoc_eq_none_of_not_mem (hk ▸ h.1)
      · simp [eraseAssoc, lookupAssoc, hk, ih h.2]

theorem lookupAssoc_eraseAssoc_ne (l : List (κ × α)) (k k' : κ) (h : k' ≠ k)
    (hnd : (l.map Prod.fst).Nodup) :
    lookupAssoc (eraseAssoc l k) k' = lookupAssoc l k' := by
  induction l with
  | nil => simp [eraseAssoc]
  | cons q t ih =>
      simp only [List.map_cons, List.nodup_cons] at hnd
      by_cases hk : q.1 = k
      · have hq : q.1 ≠ k' := by rw [hk]; exact Ne.symm h
        simp [eraseAssoc, lookupAssoc, hk, hq, Ne.symm h]
      · by_cases hk' : q.1 = k' <;>
          simp [eraseAssoc, lookupAssoc, hk, hk', ih hnd.2, h, Ne.symm h]

theorem lookupAssoc_isSome_of_mem {l : List (κ × α)} {p : κ × α} (h : p ∈ l) :
    (lookupAssoc l p.1).isSome = true := by
  induction l with
  | nil => simpa using h
  | cons q t ih =>
      by_cases hk : q.1 = p.1
      · simp [lookupAssoc, hk]
      · rcases List.mem_cons.mp h with h | h
        · exact absurd (by simp [h]) hk
        · simp [lookupAssoc, hk, ih h]

theorem rooms_setConn (s : ServerState) (c : Nat) (room cid : String) :
    (setConn s c room cid).rooms = s.rooms := rfl

theorem rooms_markClosed (s : ServerState) (c : Nat) :
    (markClosed s c).rooms = s.rooms := rfl

theorem getConn_rooms_update (s : ServerState) (R : List (String × Room)) (c : Nat) :
    getConn { s with rooms := R } c = getConn s c := rfl

theorem getConn_setConn_self (s : ServerState) (c : Nat) (room cid : String) :
    getConn (setConn s c room cid) c =
      { getConn s c with room := some room, clientId := some cid } := by
  simp [getConn, setConn, lookupAssoc_insertAssoc_self]

theorem getConn_setConn_ne (s : ServerState) (c c' : Nat) (room cid : String) (h : c' ≠ c) :
    getConn (setConn s c room cid) c' = getConn s c' := by
  simp [getConn, setConn, lookupAssoc_insertAssoc_ne _ _ _ _ h]

theorem isOpen_getConn_setConn (s : ServerState) (c c' : Nat) (room cid : String) :
    (getConn (setConn s c room cid) c').isOpen = (getConn s c').isOpen := by
  by_cases h : c' = c
  · subst h; rw [getConn_setConn_self]
  · rw [getConn_setConn_ne _ _ _ _ _ h]

theorem getConn_markClosed_self (s : ServerState) (c : Nat) :
    getConn (markClosed s c) c = { getConn s c with isOpen := false } := by
  simp [getConn, markClosed, lookupAssoc_insertAssoc_self]

theorem getConn_markClosed_ne (s : ServerState) (c c' : Nat) (h : c' ≠ c) :
    getConn (markClosed s c) c' = getConn s c' := by
  simp [getConn, markClosed, lookupAssoc_insertAssoc_ne _ _ _ _ h]

end SyncRelay

namespace SyncRelay

theorem filterMapSomeMap {β γ : Type} (l : List β) (f : β → γ) :
    l.filterMap (fun b => some (f b)) = l.map f := by
  induction l with
  | nil => rfl
  | cons b t ih => simp [List.filterMap_cons, ih]

theorem snd_mem_broadcastToRoom {s : ServerState} {room : String} {obj : OutMsg}
    {e : Option String} {p : Send} (h : p ∈ broadcastToRoom s room obj e) :
    p.2 = obj := by
  unfold broadcastToRoom at h
  rcases hr : lookupAssoc s.rooms room with _ | r
  · rw [hr] at h; simp at h
  · rw [hr] at h
    rcases List.mem_filterMap.mp h with ⟨q, _, hq⟩
    by_cases h1 : some q.1 = e
    · simp [h1] at hq
    · by_cases h2 : (getConn s q.2.conn).isOpen
      · simp [h1, h2] at hq; simp [← hq]
      · simp [h1, h2] at hq

theorem broadcastToRoom_all_open {s : ServerState} {room : String} {r : Room}
    (obj : OutMsg) (e : String) (hroom : lookupAssoc s.rooms room = some r)
    (hopen : ∀ p ∈ r.clients, (getConn s p.2.conn).isOpen = true) :
    broadcastToRoom s room obj (some e) =
      r.clients.filterMap (fun p => if p.1 = e then none else some (p.2.conn, obj)) := by
  unfold broadcastToRoom
  rw [hroom]
  refine List.filterMap_congr (fun p hp => ?_)
  by_cases hpe : p.1 = e <;> simp [hpe, hopen p hp]

theorem broadcastToRoom_none_all_open {s : ServerState} {room : String} {r : Room}
    (obj : OutMsg) (hroom : lookupAssoc s.rooms room = some r)
    (hopen : ∀ p ∈ r.clients, (getConn s p.2.conn).isOpen = true) :
    broadcastToRoom s room obj none = r.clients.map (fun p => (p.2.conn, obj)) := by
  simp only [broadcastToRoom, hroom]
  rw [List.filterMap_congr (g := fun p => some (p.2.conn, obj)) (fun p hp => by simp [hopen p hp])]
  exact filterMapSomeMap _ _

theorem presenceSends_all_open {s : ServerState} {room : String} {r : Room}
    (hroom : lookupAssoc s.rooms room = some r)
    (hopen : ∀ p ∈ r.clients, (getConn s p.2.conn).isOpen = true) :
    presenceSends s room =
      r.clients.map
        (fun p => (p.2.conn, OutMsg.presence (snapshotParticipants r) (jsOrNull r.hostId))) := by
  simp only [presenceSends, hroom]
  rw [List.filterMap_congr
        (g := fun p => some (p.2.conn, OutMsg.presence (snapshotParticipants r) (jsOrNull r.hostId)))
        (fun p hp => by simp [hopen p hp])]
  exact filterMapSomeMap _ _

end SyncRelay

open SyncRelay in
/-- C9: a frame that is not valid JSON (`none`), or has a falsy `type`, or a
`type` outside the handled set {join, presence:get, start, reload, play,
pause, seek}, is dropped: the registry and connection table are untouched
and no message is sent to anyone (in particular no error reply reaches the
offender; the handler is a total function, so no event tears down the
connection or the process). -/
theorem C9_invalid_frames_are_dropped (s : ServerState) (c : Nat) (fr : Frame) :
    step s (.msg c none) = (s, [])
    ∧ (truthyS fr.type = false → step s (.msg c (some fr)) = (s, []))
    ∧ ((fr.type.getD "") ∉ "join" :: "presence:get" :: transportTypes →
        step s (.msg c (some fr)) = (s, [])) := by
  refine ⟨?_, ?_, ?_⟩
  · cases h : (getConn s c).isOpen <;> simp [step, h, handleMessage]
  · intro ht
    cases h : (getConn s c).isOpen <;> simp [step, h, handleMessage, ht]
  · intro hunk
    have hj : fr.type ≠ some "join" := by
      intro he; exact hunk (by simp [he])
    have hp : fr.type ≠ some "presence:get" := by
      intro he; exact hunk (by simp [he])
    have htr : (fr.type.getD "") ∉ transportTypes := fun hm =>
      hunk (List.mem_cons_of_mem _ (List.mem_cons_of_mem _ hm))
    cases h : (getConn s c).isOpen <;> simp only [step, h, if_true, if_false]
    · rfl
    · cases hty : truthyS fr.type
      · simp [handleMessage, hty]
      · simp only [handleMessage, hty, hj, hp, htr, false_and, if_false, if_true]
        split <;> simp [htr]

namespace SyncRelay

/-- On a frame whose `type` is one of the transport commands, the message
handler reduces to the relay branch. -/
theorem handleMessage_transport (s : ServerState) (c : Nat) (data : Frame) (t : String)
    (hft : data.type = some t) (htmem : t ∈ transportTypes) :
    handleMessage s c (some data) =
      (if truthyS (getConn s c).room = true
          ∧ (lookupAssoc s.rooms ((getConn s c).room.getD "")).isSome = true then
        (s, broadcastToRoom s ((getConn s c).room.getD "")
              (OutMsg.forward { data with clientId := (getConn s c).clientId })
              (getConn s c).clientId)
      else (s, [])) := by
  simp only [transportTypes, List.mem_cons, List.not_mem_nil, or_false] at htmem
  rcases htmem with rfl | rfl | rfl | rfl | rfl <;>
    simp [handleMessage, hft, truthyS, transportTypes]

end SyncRelay

open SyncRelay in
/-- C10: relayed transport commands carry the clientId the connection
registered at join, never the one in the inbound frame: two frames from
the same connection that differ only in their `clientId` field are handled
identically, and every resulting send is the forward of the frame with
`clientId` overwritten by the connection's registered `ws._clientId`. -/
theorem C10_forward_uses_registered_clientId (s : ServerState) (c : Nat) (fr1 fr2 : Frame)
    (hsame : fr1 = { fr2 with clientId := fr1.clientId })
    (htype : (fr1.type.getD "") ∈ transportTypes) :
    step s (.msg c (some fr1)) = step s (.msg c (some fr2))
    ∧ ∀ p ∈ (step s (.msg c (some fr1))).2,
        p.2 = OutMsg.forward ({ fr1 with clientId := (getConn s c).clientId }) := by
  have hsome : ∃ t, fr1.type = some t ∧ t ∈ transportTypes := by
    cases h : fr1.type with
    | none => rw [h] at htype; simp [transportTypes] at htype
    | some t => exact ⟨t, rfl, by rwa [h] at htype⟩
  obtain ⟨t, hft, htmem⟩ := hsome
  have hty2 : fr2.type = some t := by rw [hsame] at hft; exact hft
  have hfwd : ∀ v : Option String,
      ({ fr1 with clientId := v } : Frame) = { fr2 with clientId := v } := by
    intro v; rw [hsame]
  constructor
  · cases hopen : (getConn s c).isOpen <;> simp only [step, hopen]
    · simp
    · simp only [if_true]
      rw [handleMessage_transport s c fr1 t hft htmem,
          handleMessage_transport s c fr2 t hty2 htmem, hfwd]
  · intro p hp
    cases hopen : (getConn s c).isOpen
    · simp [step, hopen] at hp
    · simp only [step, hopen, if_true] at hp
      rw [handleMessage_transport s c fr1 t hft htmem] at hp
      by_cases hg : truthyS (getConn s c).room = true
          ∧ (lookupAssoc s.rooms ((getConn s c).room.getD "")).isSome = true
      · rw [if_pos hg] at hp
        exact snd_mem_broadcastToRoom hp
      · rw [if_neg hg] at hp
        simp at hp

namespace SyncRelay

theorem insertAssoc_insertAssoc {κ α : Type} [DecidableEq κ] (l : List (κ × α)) (k : κ) (v v' : α) :
    insertAssoc (insertAssoc l k v) k v' = insertAssoc l k v' := by
  induction l with
  | nil => simp [insertAssoc]
  | cons q t ih =>
      by_cases hk : q.1 = k <;> simp [insertAssoc, hk, ih]

theorem eraseAssoc_insertAssoc {κ α : Type} [DecidableEq κ] (l : List (κ × α)) (k : κ) (v : α) :
    eraseAssoc (insertAssoc l k v) k = eraseAssoc l k := by
  induction l with
  | nil => simp [insertAssoc, eraseAssoc]
  | cons q t ih =>
      by_cases hk : q.1 = k <;> simp [insertAssoc, eraseAssoc, hk, ih]

theorem self_mem_keys_insertAssoc {κ α : Type} [DecidableEq κ] (l : List (κ × α)) (k : κ) (v : α) :
    k ∈ (insertAssoc l k v).map Prod.fst := by
  rw [map_fst_insertAssoc]
  by_cases hm : k ∈ l.map Prod.fst <;> simp [hm]

theorem mem_of_lookupAssoc {κ α : Type} [DecidableEq κ] {l : List (κ × α)} {k : κ} {v : α}
    (h : lookupAssoc l k = some v) : (k, v) ∈ l := by
  induction l with
  | nil => simp [lookupAssoc] at h
  | cons q t ih =>
      obtain ⟨k', v'⟩ := q
      by_cases hk : k' = k
      · rw [lookupAssoc, if_pos hk] at h
        subst hk
        injection h with h
        subst h
        exact List.mem_cons_self _ _
      · rw [lookupAssoc, if_neg hk] at h
        exact List.mem_cons_of_mem _ (ih h)

theorem truthyS_getD {o : Option String} (h : truthyS o = true) : o.getD "" ≠ "" := by
  cases o with
  | none => simp [truthyS] at h
  | some v => simpa [truthyS] using h

/-- The per-room shape every registry entry keeps: unique, truthy member
keys, and a host that is one of the members. -/
def roomWF (r : Room) : Prop :=
  (r.clients.map Prod.fst).Nodup
  ∧ (∀ p ∈ r.clients, p.1 ≠ "")
  ∧ ∃ h, r.hostId = some h ∧ h ∈ r.clients.map Prod.fst

/-- The global invariant: unique room codes, each room well-formed, and a
connection that has a truthy `ws._room` also has a truthy `ws._clientId`
(they are only ever assigned together, by a guarded join). -/
def stateWF (s : ServerState) : Prop :=
  (s.rooms.map Prod.fst).Nodup
  ∧ (∀ q ∈ s.rooms, roomWF q.2)
  ∧ (∀ q ∈ s.conns, truthyS q.2.room = true → truthyS q.2.clientId = true)

theorem stateWF_getConn {s : ServerState} (h : stateWF s) (c : Nat)
    (hr : truthyS (getConn s c).room = true) : truthyS (getConn s c).clientId = true := by
  rcases hl : lookupAssoc s.conns c with _ | cst
  · rw [getConn, hl] at hr
    simp [truthyS] at hr
  · rw [getConn, hl] at hr ⊢
    exact h.2.2 (c, cst) (mem_of_lookupAssoc hl) hr

theorem roomWF_joinedRoom {s : ServerState} (hs : stateWF s) (c : Nat)
    (room : String) {clientId : String} (username : String) (hcid : clientId ≠ "") :
    roomWF (joinedRoom s c room clientId username) := by
  unfold joinedRoom
  rcases hl : lookupAssoc s.rooms room with _ | r0
  · simp only [hl, Option.getD_none, truthyS]
    exact ⟨by simp [insertAssoc], by simp [insertAssoc, hcid],
      clientId, by simp, by simp [insertAssoc]⟩
  · have hwf : roomWF r0 := hs.2.1 (room, r0) (mem_of_lookupAssoc hl)
    obtain ⟨hnd0, hne0, h0, hh0, hm0⟩ := hwf
    have hne1 : ∀ p ∈ insertAssoc r0.clients clientId ⟨c, joinUsername none clientId⟩, True := by
      intro _ _; trivial
    simp only [hl, Option.getD_some]
    by_cases hid : truthyS r0.hostId = true
    · simp only [hid, if_true]
      refine ⟨nodup_keys_insertAssoc hnd0, ?_, h0, hh0, mem_keys_insertAssoc hm0⟩
      intro p hp
      rcases mem_insertAssoc hp with hp | hp
      · rw [hp]; exact hcid
      · exact hne0 p hp
    · simp only [hid, if_false]
      refine ⟨nodup_keys_insertAssoc hnd0, ?_, clientId, rfl, self_mem_keys_insertAssoc _ _ _⟩
      intro p hp
      rcases mem_insertAssoc hp with hp | hp
      · rw [hp]; exact hcid
      · exact hne0 p hp

theorem stateWF_handleJoin {s : ServerState} {c : Nat} {data : Frame}
    (h : stateWF s) (hroomT : truthyS data.room = true) (hcidT : truthyS data.clientId = true) :
    stateWF (handleJoin s c data).1 := by
  have hroomNe : data.room.getD "" ≠ "" := truthyS_getD hroomT
  have hcidNe : data.clientId.getD "" ≠ "" := truthyS_getD hcidT
  have hs1 : stateWF (setConn s c (data.room.getD "") (data.clientId.getD "")) := by
    refine ⟨h.1, h.2.1, ?_⟩
    intro q hq htr
    rcases mem_insertAssoc hq with hq | hq
    · rw [hq]
      simp [truthyS, hcidNe]
    · exact h.2.2 q hq htr
  refine ⟨nodup_keys_insertAssoc h.1, ?_, hs1.2.2⟩
  intro q hq
  rcases mem_insertAssoc hq with hq | hq
  · rw [hq]
    exact roomWF_joinedRoom hs1 c _ _ hcidNe
  · exact h.2.1 q hq

end SyncRelay

namespace SyncRelay

theorem head?_mem {β : Type} {l : List β} {a : β} (h : l.head? = some a) : a ∈ l := by
  cases l with
  | nil => simp at h
  | cons b t => injection h with h; rw [h]; exact List.mem_cons_self _ _

theorem jsOrNull_eq_some {o : Option String} {x : String} (h : jsOrNull o = some x) :
    o = some x := by
  cases o with
  | none => simp [jsOrNull] at h
  | some v =>
      by_cases hv : v = ""
      · simp [jsOrNull, hv] at h
      · simpa [jsOrNull, hv] using h

theorem stateWF_markClosed {s : ServerState} (h : stateWF s) (c : Nat) :
    stateWF (markClosed s c) := by
  refine ⟨h.1, h.2.1, ?_⟩
  intro q hq htr
  rcases mem_insertAssoc hq with hq | hq
  · rw [hq] at htr ⊢
    exact stateWF_getConn h c htr
  · exact h.2.2 q hq htr

theorem stateWF_handleClose {s : ServerState} (h : stateWF s) (c : Nat) :
    stateWF (handleClose s c).1 := by
  have h0 : stateWF (markClosed s c) := stateWF_markClosed h c
  simp only [handleClose]
  by_cases hrT : truthyS (getConn s c).room = true
  · simp only [hrT, if_true]
    rcases hl : lookupAssoc (markClosed s c).rooms ((getConn s c).room.getD "") with _ | r
    · exact h0
    · have hls : lookupAssoc s.rooms ((getConn s c).room.getD "") = some r := hl
      have hrWF : roomWF r := h.2.1 _ (mem_of_lookupAssoc hls)
      have hcidT : truthyS (getConn s c).clientId = true := stateWF_getConn h c hrT
      have hcidNe : (getConn s c).clientId.getD "" ≠ "" := truthyS_getD hcidT
      obtain ⟨hndr, hner, hh, hhr, hhm⟩ := hrWF
      have hr1nd :
          ((eraseAssoc r.clients ((getConn s c).clientId.getD "")).map Prod.fst).Nodup :=
        nodup_keys_eraseAssoc hndr
      have hr1ne : ∀ p ∈ eraseAssoc r.clients ((getConn s c).clientId.getD ""), p.1 ≠ "" :=
        fun p hp => hner p (mem_of_mem_eraseAssoc hp)
      by_cases hhost : r.hostId = some ((getConn s c).clientId.getD "")
      · simp only [hhost, if_pos]
        rcases hnh : jsOrNull
            ((eraseAssoc r.clients ((getConn s c).clientId.getD "")).map Prod.fst).head?
          with _ | newHost
        · dsimp only
          refine ⟨?_, ?_, h0.2.2⟩
          · rw [eraseAssoc_insertAssoc]
            exact nodup_keys_eraseAssoc h.1
          · intro q hq
            rw [eraseAssoc_insertAssoc] at hq
            exact h.2.1 q (mem_of_mem_eraseAssoc hq)
        · dsimp only
          refine ⟨?_, ?_, h0.2.2⟩
          · rw [insertAssoc_insertAssoc]
            exact nodup_keys_insertAssoc h.1
          · intro q hq
            rw [insertAssoc_insertAssoc] at hq
            rcases mem_insertAssoc hq with hq | hq
            · rw [hq]
              refine ⟨hr1nd, hr1ne, newHost, rfl, ?_⟩
              exact head?_mem (jsOrNull_eq_some hnh)
            · exact h.2.1 q hq
      · simp only [hhost, if_neg, if_false]
        refine ⟨nodup_keys_insertAssoc h.1, ?_, h0.2.2⟩
        intro q hq
        rcases mem_insertAssoc hq with hq | hq
        · rw [hq]
          refine ⟨hr1nd, hr1ne, hh, hhr, ?_⟩
          have hne : hh ≠ (getConn s c).clientId.getD "" := by
            intro he
            rw [he] at hhr
            exact hhost hhr
          rcases List.mem_map.mp hhm with ⟨p, hp, hp1⟩
          exact List.mem_map.mpr ⟨p, mem_eraseAssoc_of_ne hp (by rw [hp1]; exact hne), hp1⟩
        · exact h.2.1 q hq
  · simp only [hrT, if_false]
    exact h0

theorem fst_handlePresenceGet (s : ServerState) (c : Nat) (data : Frame) :
    (handlePresenceGet s c data).1 = s := by
  simp only [handlePresenceGet]
  rcases lookupAssoc s.rooms (data.room.getD "") with _ | r <;> rfl

theorem fst_handleMessage_nonjoin (s : ServerState) (c : Nat) (data : Frame)
    (hnj : ¬(data.type = some "join" ∧ truthyS data.room = true ∧ truthyS data.clientId = true)) :
    (handleMessage s c (some data)).1 = s := by
  simp only [handleMessage]
  by_cases hty : truthyS data.type = true
  · rw [if_pos hty, if_neg hnj]
    by_cases hpg : data.type = some "presence:get" ∧ truthyS data.room = true
    · rw [if_pos hpg]
      exact fst_handlePresenceGet s c data
    · rw [if_neg hpg]
      split
      · split <;> rfl
      · rfl
  · rw [if_neg hty]

theorem stateWF_step {s : ServerState} (h : stateWF s) (e : Event) :
    stateWF (step s e).1 := by
  cases e with
  | msg c fr =>
      cases hopen : (getConn s c).isOpen
      · simpa [step, hopen] using h
      · simp only [step, hopen, if_true]
        cases fr with
        | none => exact h
        | some data =>
            by_cases hj : data.type = some "join" ∧ truthyS data.room = true
                ∧ truthyS data.clientId = true
            · have hty : truthyS data.type = true := by
                rw [hj.1]
                simp [truthyS]
              have hme : handleMessage s c (some data) = handleJoin s c data := by
                simp only [handleMessage]
                rw [if_pos hty, if_pos hj]
              rw [hme]
              exact stateWF_handleJoin h hj.2.1 hj.2.2
            · rw [fst_handleMessage_nonjoin s c data hj]
              exact h
  | close c =>
      cases hopen : (getConn s c).isOpen
      · simpa [step, hopen] using h
      · simp only [step, hopen, if_true]
        exact stateWF_handleClose h c

theorem stateWF_applyEvents {s : ServerState} (h : stateWF s) (es : List Event) :
    stateWF (applyEvents s es) := by
  induction es generalizing s with
  | nil => exact h
  | cons e t ih => exact ih (stateWF_step h e)

theorem stateWF_runEvents (es : List Event) : stateWF (runEvents es) :=
  stateWF_applyEvents ⟨by simp [initState], by simp [initState], by simp [initState]⟩ es

end SyncRelay

open SyncRelay in
/-- C3: after any processed sequence of events (joins and disconnects)
from server start-up, every room present in the registry has at least one
member, and its hostId is non-null and equal to the clientId of one of its
current members; no room with zero members is ever retained. -/
theorem C3_registry_rooms_nonempty_host_member (es : List Event) :
    ∀ q ∈ (runEvents es).rooms,
      q.2.clients ≠ []
      ∧ ∃ h, q.2.hostId = some h ∧ h ∈ q.2.clients.map Prod.fst := by
  intro q hq
  obtain ⟨-, -, h, hh, hm⟩ := (stateWF_runEvents es).2.1 q hq
  refine ⟨?_, h, hh, hm⟩
  intro hnil
  rw [hnil] at hm
  simp at hm

open SyncRelay in
/-- Witness for C3 at a concrete two-join run. -/
theorem C3_registry_rooms_nonempty_host_member_witness :
    (("r", ({ hostId := some "a",
              clients := [("a", ⟨0, "Al"⟩), ("b", ⟨1, "Bo"⟩)] } : Room)) :
        String × Room).2.clients ≠ []
    ∧ ∃ h,
        (("r", ({ hostId := some "a",
                  clients := [("a", ⟨0, "Al"⟩), ("b", ⟨1, "Bo"⟩)] } : Room)) :
            String × Room).2.hostId = some h
        ∧ h ∈ (("r", ({ hostId := some "a",
                        clients := [("a", ⟨0, "Al"⟩), ("b", ⟨1, "Bo"⟩)] } : Room)) :
            String × Room).2.clients.map Prod.fst :=
  C3_registry_rooms_nonempty_host_member
    [joinEv "r" (0, "a", "Al"), joinEv "r" (1, "b", "Bo")] _ (by decide)

namespace SyncClient

theorem runInterval_inactive (startAt : Int) (ts : List Int) (st : SyncState)
    (h : st.timer = false) : runInterval startAt ts st = st := by
  induction ts with
  | nil => rfl
  | cons t rest ih => simpa [runInterval, h] using ih

theorem tickFn_fires_iff (startAt t : Int) :
    (max 0 (jsCeil1000 (startAt - t)) ≤ 0) ↔ startAt ≤ t := by
  unfold jsCeil1000
  omega

theorem runInterval_spec (startAt : Int) (ts : List Int) (st : SyncState)
    (ha : st.timer = true) (hr : st.reloads = []) :
    (runInterval startAt ts st).reloads.length ≤ 1
    ∧ (∀ x ∈ (runInterval startAt ts st).reloads, startAt ≤ x ∧ x ∈ ts)
    ∧ ((∃ t ∈ ts, startAt ≤ t) → (runInterval startAt ts st).reloads.length = 1) := by
  induction ts generalizing st with
  | nil =>
      refine ⟨by simp [runInterval, hr], by simp [runInterval, hr], ?_⟩
      rintro ⟨t, ht, -⟩
      simp at ht
  | cons t rest ih =>
      have hguard : (if st.timer = true then tickFn startAt t st else st) =
          tickFn startAt t st := by rw [if_pos ha]
      by_cases hfire : startAt ≤ t
      · have hstep : tickFn startAt t st =
            { timer := false, countdown := none, reloads := st.reloads ++ [t] } := by
          rw [tickFn, if_pos ((tickFn_fires_iff startAt t).mpr hfire)]
        have hrest : runInterval startAt (t :: rest) st =
            { timer := false, countdown := none, reloads := st.reloads ++ [t] } := by
          have hfold : runInterval startAt (t :: rest) st =
              runInterval startAt rest (tickFn startAt t st) := by
            simp only [runInterval, List.foldl_cons, hguard]
          rw [hfold, hstep]
          exact runInterval_inactive startAt rest _ rfl
        refine ⟨?_, ?_, fun _ => ?_⟩
        · simp [hrest, hr]
        · intro x hx
          simp only [hrest, hr] at hx
          simp only [List.nil_append, List.mem_singleton] at hx
          subst hx
          exact ⟨hfire, by simp⟩
        · simp [hrest, hr]
      · have hstep : tickFn startAt t st =
            { st with countdown := some (max 0 (jsCeil1000 (startAt - t))) } := by
          rw [tickFn,
            if_neg (fun hc => hfire ((tickFn_fires_iff startAt t).mp hc))]
        have ha' : (tickFn startAt t st).timer = true := by rw [hstep]; exact ha
        have hr' : (tickFn startAt t st).reloads = [] := by rw [hstep]; exact hr
        have hfold : runInterval startAt (t :: rest) st =
            runInterval startAt rest (tickFn startAt t st) := by
          simp only [runInterval, List.foldl_cons, hguard]
        obtain ⟨ih1, ih2, ih3⟩ := ih (tickFn startAt t st) ha' hr'
        refine ⟨by rw [hfold]; exact ih1, ?_, ?_⟩
        · intro x hx
          rw [hfold] at hx
          obtain ⟨h1, h2⟩ := ih2 x hx
          exact ⟨h1, List.mem_cons_of_mem t h2⟩
        · rintro ⟨u, hu, hu2⟩
          rcases List.mem_cons.mp hu with hu | hu
          · exact absurd (hu ▸ hu2) hfire
          · rw [hfold]
            exact ih3 ⟨u, hu, hu2⟩

/-- The part of the claimed behavior the code does satisfy: when `start`
is received strictly before `startAt`, the immediate call only displays,
and the reload fires exactly once — at the first interval instant at or
after `startAt`, never before it. -/
theorem runStart_single_reload_of_future (startAt t0 : Int) (ts : List Int)
    (h : t0 < startAt) :
    (runStart startAt t0 ts).reloads.length ≤ 1
    ∧ (∀ x ∈ (runStart startAt t0 ts).reloads, startAt ≤ x ∧ x ∈ ts)
    ∧ ((∃ t ∈ ts, startAt ≤ t) → (runStart startAt t0 ts).reloads.length = 1) := by
  have hst1 : tickFn startAt t0 ⟨false, none, []⟩ =
      ⟨false, some (max 0 (jsCeil1000 (startAt - t0))), []⟩ := by
    rw [tickFn,
      if_neg (fun hc => absurd ((tickFn_fires_iff startAt t0).mp hc) (by omega))]
  unfold runStart
  rw [hst1]
  exact runInterval_spec startAt ts _ rfl rfl

/-- The displayed countdown is recomputed from `startAt` at each call and
matches `max(0, startAt - t)` to within one second. -/
theorem tickFn_display_accuracy (startAt t : Int) (st : SyncState) (h : t < startAt) :
    ∃ k, (tickFn startAt t st).countdown = some k
      ∧ 0 ≤ 1000 * k - (startAt - t) ∧ 1000 * k - (startAt - t) < 1000 := by
  have hnf : ¬ max 0 (jsCeil1000 (startAt - t)) ≤ 0 :=
    fun hc => absurd ((tickFn_fires_iff startAt t).mp hc) (by omega)
  refine ⟨max 0 (jsCeil1000 (startAt - t)), ?_, ?_, ?_⟩
  · rw [tickFn, if_neg hnf]
  · unfold jsCeil1000
    omega
  · unfold jsCeil1000
    omega

end SyncClient

open SyncClient in
/-- C4: the claim's "the player-reload action fires exactly once" fails on
the code.  For a `start` accepted with `startAt = 1000` when the client's
clock already reads 5000 at receipt (`startAt` elapsed — the acceptance
guard only requires `startAt > 0`), the immediate `tickFn()` call fires
the reload at 5000, but it runs while `startTimerRef.current` is still
null — the interval is installed only after it returns and its clear is
guarded by `if (startTimerRef.current)` — so the interval starts anyway
and its first callback at 5500 fires the reload a second time before
clearing itself.  The recorded reload instants are [5000, 5500]: two
reloads, where the claim (and the spec's explicit "exactly once, guard
against duplicate zero-crossings") requires one. -/
theorem C4_reload_fires_twice_when_startAt_elapsed :
    (runStart 1000 5000 [5500, 6000]).reloads = [5000, 5500] := by decide


namespace SyncRelay

theorem step_close_last_member {s : ServerState} {c : Nat} {code m1 : String} {i1 : ClientInfo}
    (hconn : getConn s c = ⟨some code, some m1, true⟩)
    (hcode : code ≠ "") (hm1 : m1 ≠ "")
    (hroom : lookupAssoc s.rooms code = some ⟨some m1, [(m1, i1)]⟩) :
    step s (.close c) =
      ({ rooms := eraseAssoc s.rooms code,
         conns := insertAssoc s.conns c ⟨some code, some m1, false⟩ }, []) := by
  have hmark : markClosed s c =
      { s with conns := insertAssoc s.conns c ⟨some code, some m1, false⟩ } := by
    rw [markClosed, hconn]
  have h1 : step s (.close c) = handleClose s c := by
    simp [step, hconn]
  rw [h1]
  unfold handleClose
  rw [hconn, hmark]
  simp only [truthyS, Option.getD_some, hroom, eraseAssoc, lookupAssoc,
    broadcastToRoom, lookupAssoc_insertAssoc_self, jsOrNull, eraseAssoc_insertAssoc,
    List.map_nil, List.head?_nil, List.filterMap_nil]
  simp [hcode, eraseAssoc_insertAssoc]

end SyncRelay

namespace SyncRelay

theorem getConn_insert_ne (s : ServerState) (R : List (String × Room)) (c x : Nat)
    (cst : ConnState) (h : x ≠ c) :
    getConn { rooms := R, conns := insertAssoc s.conns c cst } x = getConn s x := by
  simp [getConn, lookupAssoc_insertAssoc_ne _ _ _ _ h]

theorem step_close_host_failover {s : ServerState} {c : Nat} {code m1 m2 : String}
    {i1 i2 : ClientInfo} {rest' : List (String × ClientInfo)}
    (hconn : getConn s c = ⟨some code, some m1, true⟩)
    (hcode : code ≠ "") (hm1 : m1 ≠ "")
    (hroom : lookupAssoc s.rooms code = some ⟨some m1, (m1, i1) :: (m2, i2) :: rest'⟩)
    (hm1r : m1 ∉ ((m2, i2) :: rest').map Prod.fst)
    (hkeysne : ∀ p ∈ (m2, i2) :: rest', p.1 ≠ "")
    (hopen : ∀ p ∈ (m2, i2) :: rest',
        p.2.conn ≠ c ∧ (getConn s p.2.conn).isOpen = true) :
    step s (.close c) =
      ({ rooms := insertAssoc s.rooms code ⟨some m2, (m2, i2) :: rest'⟩,
         conns := insertAssoc s.conns c ⟨some code, some m1, false⟩ },
       ((m2, i2) :: rest').map (fun p => (p.2.conn, OutMsg.userLeft m1))
         ++ (((m2, i2) :: rest').map (fun p => (p.2.conn, OutMsg.host false))
         ++ ([(i2.conn, OutMsg.host true)]
         ++ ((m2, i2) :: rest').map (fun p =>
              (p.2.conn, OutMsg.presence
                (snapshotParticipants ⟨some m2, (m2, i2) :: rest'⟩) (some m2)))))) := by
  have hm2ne : m2 ≠ "" := hkeysne (m2, i2) (List.mem_cons_self _ _)
  have hmark : markClosed s c =
      { s with conns := insertAssoc s.conns c ⟨some code, some m1, false⟩ } := by
    rw [markClosed, hconn]
  have h1 : step s (.close c) = handleClose s c := by
    simp [step, hconn]
  have hopen1 : ∀ p ∈ ((⟨some m1, (m2, i2) :: rest'⟩ : Room)).clients,
      (getConn ⟨insertAssoc s.rooms code ⟨some m1, (m2, i2) :: rest'⟩,
        insertAssoc s.conns c ⟨some code, some m1, false⟩⟩ p.2.conn).isOpen = true := by
    intro p hp
    rw [getConn_insert_ne s _ c _ _ (hopen p hp).1]
    exact (hopen p hp).2
  have hopen2 : ∀ p ∈ ((⟨some m2, (m2, i2) :: rest'⟩ : Room)).clients,
      (getConn ⟨insertAssoc s.rooms code ⟨some m2, (m2, i2) :: rest'⟩,
        insertAssoc s.conns c ⟨some code, some m1, false⟩⟩ p.2.conn).isOpen = true := by
    intro p hp
    rw [getConn_insert_ne s _ c _ _ (hopen p hp).1]
    exact (hopen p hp).2
  have hlook1 : lookupAssoc
      (insertAssoc s.rooms code (⟨some m1, (m2, i2) :: rest'⟩ : Room)) code =
      some ⟨some m1, (m2, i2) :: rest'⟩ := lookupAssoc_insertAssoc_self _ _ _
  have hlook2 : lookupAssoc
      (insertAssoc s.rooms code (⟨some m2, (m2, i2) :: rest'⟩ : Room)) code =
      some ⟨some m2, (m2, i2) :: rest'⟩ := lookupAssoc_insertAssoc_self _ _ _
  have hb1 : broadcastToRoom
      ⟨insertAssoc s.rooms code ⟨some m1, (m2, i2) :: rest'⟩,
        insertAssoc s.conns c ⟨some code, some m1, false⟩⟩
      code (OutMsg.userLeft m1) (some m1) =
      ((m2, i2) :: rest').map (fun p => (p.2.conn, OutMsg.userLeft m1)) := by
    rw [broadcastToRoom_all_open (OutMsg.userLeft m1) m1 hlook1 hopen1]
    rw [List.filterMap_congr (g := fun p => some (p.2.conn, OutMsg.userLeft m1)) ?_]
    · exact filterMapSomeMap _ _
    · intro p hp
      have hne : p.1 ≠ m1 := by
        intro he
        exact hm1r (List.mem_map.mpr ⟨p, hp, he⟩)
      simp [hne]
  have hb2 : broadcastToRoom
      ⟨insertAssoc s.rooms code ⟨some m2, (m2, i2) :: rest'⟩,
        insertAssoc s.conns c ⟨some code, some m1, false⟩⟩
      code (OutMsg.host false) none =
      ((m2, i2) :: rest').map (fun p => (p.2.conn, OutMsg.host false)) :=
    broadcastToRoom_none_all_open (OutMsg.host false) hlook2 hopen2
  have hb4 : presenceSends
      ⟨insertAssoc s.rooms code ⟨some m2, (m2, i2) :: rest'⟩,
        insertAssoc s.conns c ⟨some code, some m1, false⟩⟩ code =
      ((m2, i2) :: rest').map (fun p =>
        (p.2.conn, OutMsg.presence
          (snapshotParticipants ⟨some m2, (m2, i2) :: rest'⟩) (some m2))) := by
    rw [presenceSends_all_open hlook2 hopen2]
    have hj : jsOrNull ((⟨some m2, (m2, i2) :: rest'⟩ : Room)).hostId = some m2 := by
      simp [jsOrNull, hm2ne]
    rw [hj]
  rw [h1]
  unfold handleClose
  rw [hconn, hmark]
  rw [if_pos (by simp [truthyS, hcode])]
  simp only [Option.getD_some, eraseAssoc, if_true, ite_true, eq_self_iff_true,
    List.map_cons, List.head?_cons, jsOrNull, insertAssoc_insertAssoc]
  rw [hroom]
  simp only [Option.getD_some, eraseAssoc, if_true, ite_true, ite_false, eq_self_iff_true,
    hm2ne, List.map_cons, List.head?_cons, jsOrNull, insertAssoc_insertAssoc, lookupAssoc]
  rw [hb1, hb2, hb4]
  simp [lookupAssoc]

end SyncRelay

open SyncRelay in
/-- C1: when a room's members in join order are `m1 :: rest` and `m1` is
host, processing `m1`'s disconnect removes `m1` from the membership and
promotes the earliest-joined remaining member (the head of `rest`) to
host; when no member remains the room entry is deleted from the
registry. -/
theorem C1_host_close_promotes_earliest_or_deletes (s : ServerState) (c : Nat)
    (code m1 : String) (i1 : ClientInfo) (rest : List (String × ClientInfo))
    (hconn : getConn s c = ⟨some code, some m1, true⟩)
    (hcode : code ≠ "") (hm1 : m1 ≠ "")
    (hroom : lookupAssoc s.rooms code = some ⟨some m1, (m1, i1) :: rest⟩)
    (hm1r : m1 ∉ rest.map Prod.fst)
    (hkeysne : ∀ p ∈ rest, p.1 ≠ "")
    (hopen : ∀ p ∈ rest, p.2.conn ≠ c ∧ (getConn s p.2.conn).isOpen = true)
    (hnod : (s.rooms.map Prod.fst).Nodup) :
    (rest = [] → lookupAssoc ((step s (.close c)).1).rooms code = none)
    ∧ (∀ m2 i2 rest', rest = (m2, i2) :: rest' →
        lookupAssoc ((step s (.close c)).1).rooms code =
          some ⟨some m2, (m2, i2) :: rest'⟩) := by
  constructor
  · intro hrest
    subst hrest
    rw [step_close_last_member hconn hcode hm1 hroom]
    exact lookupAssoc_eraseAssoc_self hnod
  · intro m2 i2 rest' hrest
    subst hrest
    rw [step_close_host_failover hconn hcode hm1 hroom hm1r hkeysne hopen]
    exact lookupAssoc_insertAssoc_self _ _ _

open SyncRelay in
/-- Witness for C1 on a two-member room: host "a" disconnects, "b" (the
earliest-joined remaining member) becomes host. -/
theorem C1_host_close_promotes_earliest_or_deletes_witness :
    lookupAssoc
      ((step ⟨[("r", ⟨some "a", [("a", ⟨0, "Al"⟩), ("b", ⟨1, "Bo"⟩)]⟩)],
              [(0, ⟨some "r", some "a", true⟩), (1, ⟨some "r", some "b", true⟩)]⟩
          (.close 0)).1).rooms "r" =
      some ⟨some "b", [("b", ⟨1, "Bo"⟩)]⟩ :=
  (C1_host_close_promotes_earliest_or_deletes
      ⟨[("r", ⟨some "a", [("a", ⟨0, "Al"⟩), ("b", ⟨1, "Bo"⟩)]⟩)],
       [(0, ⟨some "r", some "a", true⟩), (1, ⟨some "r", some "b", true⟩)]⟩
      0 "r" "a" ⟨0, "Al"⟩ [("b", ⟨1, "Bo"⟩)]
      (by decide) (by decide) (by decide) (by decide) (by decide) (by decide)
      (by decide) (by decide)).2 "b" ⟨1, "Bo"⟩ [] rfl

open SyncRelay in
/-- C7: when the host of a room with remaining members disconnects, the
sends are, in order: `user-left` (with the departed host's clientId) to
every remaining member, then `host:false` broadcast to the whole room,
then `host:true` to exactly the newly promoted host's connection, then the
presence snapshot carrying the new hostId to every remaining member. -/
theorem C7_failover_send_order (s : ServerState) (c : Nat) (code m1 m2 : String)
    (i1 i2 : ClientInfo) (rest' : List (String × ClientInfo))
    (hconn : getConn s c = ⟨some code, some m1, true⟩)
    (hcode : code ≠ "") (hm1 : m1 ≠ "")
    (hroom : lookupAssoc s.rooms code = some ⟨some m1, (m1, i1) :: (m2, i2) :: rest'⟩)
    (hm1r : m1 ∉ ((m2, i2) :: rest').map Prod.fst)
    (hkeysne : ∀ p ∈ (m2, i2) :: rest', p.1 ≠ "")
    (hopen : ∀ p ∈ (m2, i2) :: rest',
        p.2.conn ≠ c ∧ (getConn s p.2.conn).isOpen = true) :
    (step s (.close c)).2 =
      ((m2, i2) :: rest').map (fun p => (p.2.conn, OutMsg.userLeft m1))
        ++ (((m2, i2) :: rest').map (fun p => (p.2.conn, OutMsg.host false))
        ++ ([(i2.conn, OutMsg.host true)]
        ++ ((m2, i2) :: rest').map (fun p =>
             (p.2.conn, OutMsg.presence
               (snapshotParticipants ⟨some m2, (m2, i2) :: rest'⟩) (some m2))))) := by
  rw [step_close_host_failover hconn hcode hm1 hroom hm1r hkeysne hopen]

open SyncRelay in
/-- Witness for C7 on a three-member room [a, b, c] with host a closing. -/
theorem C7_failover_send_order_witness :
    (step ⟨[("r", ⟨some "a",
              [("a", ⟨0, "Al"⟩), ("b", ⟨1, "Bo"⟩), ("c", ⟨2, "Ce"⟩)]⟩)],
            [(0, ⟨some "r", some "a", true⟩), (1, ⟨some "r", some "b", true⟩),
             (2, ⟨some "r", some "c", true⟩)]⟩
        (.close 0)).2 =
      [("b", (⟨1, "Bo"⟩ : ClientInfo)), ("c", ⟨2, "Ce"⟩)].map
          (fun p => (p.2.conn, OutMsg.userLeft "a"))
        ++ ([("b", (⟨1, "Bo"⟩ : ClientInfo)), ("c", ⟨2, "Ce"⟩)].map
              (fun p => (p.2.conn, OutMsg.host false))
        ++ ([(1, OutMsg.host true)]
        ++ [("b", (⟨1, "Bo"⟩ : ClientInfo)), ("c", ⟨2, "Ce"⟩)].map
              (fun p => (p.2.conn, OutMsg.presence
                (snapshotParticipants ⟨some "b", [("b", ⟨1, "Bo"⟩), ("c", ⟨2, "Ce"⟩)]⟩)
                (some "b"))))) :=
  C7_failover_send_order
    ⟨[("r", ⟨some "a", [("a", ⟨0, "Al"⟩), ("b", ⟨1, "Bo"⟩), ("c", ⟨2, "Ce"⟩)]⟩)],
     [(0, ⟨some "r", some "a", true⟩), (1, ⟨some "r", some "b", true⟩),
      (2, ⟨some "r", some "c", true⟩)]⟩
    0 "r" "a" "b" ⟨0, "Al"⟩ ⟨1, "Bo"⟩ [("c", ⟨2, "Ce"⟩)]
    (by decide) (by decide) (by decide) (by decide) (by decide) (by decide) (by decide)

open SyncRelay in
/-- C8: after the last member of a room disconnects the room entry is gone
from the registry; a `presence:get` for a code absent from the registry
(whether just deleted or never created) is answered to the sender alone
with an empty participant list and a null hostId; and a transport command
from a connection whose recorded room is absent from the registry produces
no sends and no state change (the handlers are total functions — no event
raises an error or tears down a connection). -/
theorem C8_deleted_room_indistinguishable (s : ServerState) (c : Nat)
    (code m1 : String) (i1 : ClientInfo)
    (hconn : getConn s c = ⟨some code, some m1, true⟩)
    (hcode : code ≠ "") (hm1 : m1 ≠ "")
    (hroom : lookupAssoc s.rooms code = some ⟨some m1, [(m1, i1)]⟩)
    (hnod : (s.rooms.map Prod.fst).Nodup) :
    lookupAssoc ((step s (.close c)).1).rooms code = none
    ∧ (∀ (t : ServerState) (c2 : Nat), lookupAssoc t.rooms code = none →
        (getConn t c2).isOpen = true →
        step t (.msg c2 (some (presenceGetFrame code))) =
          (t, [(c2, OutMsg.presence [] none)]))
    ∧ (∀ (t : ServerState) (c2 : Nat) (fr : Frame), lookupAssoc t.rooms code = none →
        (getConn t c2).room = some code →
        (fr.type.getD "") ∈ transportTypes →
        step t (.msg c2 (some fr)) = (t, [])) := by
  refine ⟨?_, ?_, ?_⟩
  · rw [step_close_last_member hconn hcode hm1 hroom]
    exact lookupAssoc_eraseAssoc_self hnod
  · intro t c2 hnone hopen2
    simp only [step, hopen2, if_true]
    simp [handleMessage, handlePresenceGet, presenceGetFrame, emptyFrame, truthyS,
      hcode, hnone]
  · intro t c2 fr hnone hcroom htype
    obtain ⟨tt, hft, htmem⟩ : ∃ tt, fr.type = some tt ∧ tt ∈ transportTypes := by
      cases h : fr.type with
      | none => rw [h] at htype; simp [transportTypes] at htype
      | some tt => exact ⟨tt, rfl, by rwa [h] at htype⟩
    cases hop : (getConn t c2).isOpen
    · simp [step, hop]
    · simp only [step, hop, if_true]
      rw [handleMessage_transport t c2 fr tt hft htmem]
      rw [if_neg ?_]
      intro hg
      rw [hcroom] at hg
      simp only [Option.getD_some] at hg
      rw [hnone] at hg
      simp at hg

open SyncRelay in
/-- Witness for C8: the single-member room "r" is deleted on close, and a
later `presence:get` for "r" is answered with an empty list and null
host. -/
theorem C8_deleted_room_indistinguishable_witness :
    step ((step ⟨[("r", ⟨some "a", [("a", ⟨0, "Al"⟩)]⟩)],
                 [(0, ⟨some "r", some "a", true⟩)]⟩ (.close 0)).1)
        (.msg 5 (some (presenceGetFrame "r"))) =
      ((step ⟨[("r", ⟨some "a", [("a", ⟨0, "Al"⟩)]⟩)],
              [(0, ⟨some "r", some "a", true⟩)]⟩ (.close 0)).1,
       [(5, OutMsg.presence [] none)]) :=
  (C8_deleted_room_indistinguishable
      ⟨[("r", ⟨some "a", [("a", ⟨0, "Al"⟩)]⟩)], [(0, ⟨some "r", some "a", true⟩)]⟩
      0 "r" "a" ⟨0, "Al"⟩ (by decide) (by decide) (by decide) (by decide)
      (by decide)).2.1 _ 5
    ((C8_deleted_room_indistinguishable
      ⟨[("r", ⟨some "a", [("a", ⟨0, "Al"⟩)]⟩)], [(0, ⟨some "r", some "a", true⟩)]⟩
      0 "r" "a" ⟨0, "Al"⟩ (by decide) (by decide) (by decide) (by decide)
      (by decide)).1)
    (by decide)

open SyncRelay in
/-- C5: a transport command (start/reload/play/pause/seek) from a joined
connection — host or not, the relay never checks — is sent to exactly the
members of its room other than the sender's clientId, as the forward of
the inbound frame with the sender's registered clientId attached and every
other field unchanged; the registry is not modified. -/
theorem C5_transport_relayed_to_others (s : ServerState) (c : Nat) (code cid : String)
    (r : Room) (fr : Frame)
    (hconn : getConn s c = ⟨some code, some cid, true⟩)
    (hcode : code ≠ "")
    (hroom : lookupAssoc s.rooms code = some r)
    (htype : (fr.type.getD "") ∈ transportTypes)
    (hopen : ∀ p ∈ r.clients, (getConn s p.2.conn).isOpen = true) :
    step s (.msg c (some fr)) =
      (s, r.clients.filterMap (fun p =>
        if p.1 = cid then none
        else some (p.2.conn, OutMsg.forward ({ fr with clientId := some cid })))) := by
  obtain ⟨t, hft, htmem⟩ : ∃ t, fr.type = some t ∧ t ∈ transportTypes := by
    cases h : fr.type with
    | none => rw [h] at htype; simp [transportTypes] at htype
    | some t => exact ⟨t, rfl, by rwa [h] at htype⟩
  have hop : (getConn s c).isOpen = true := by rw [hconn]
  have h1 : step s (.msg c (some fr)) = handleMessage s c (some fr) := by
    simp [step, hop]
  rw [h1, handleMessage_transport s c fr t hft htmem, hconn]
  dsimp only
  simp only [Option.getD_some]
  rw [if_pos ⟨by simp [truthyS, hcode], by simp [hroom]⟩]
  rw [broadcastToRoom_all_open (OutMsg.forward { fr with clientId := some cid }) cid
        hroom hopen]

open SyncRelay in
/-- Witness for C5: a non-host member "b" of a three-member room sends a
seek with time 42 and a spoofed clientId; "a" and "c" receive the forward
with clientId "b" and time 42, "b" receives nothing. -/
theorem C5_transport_relayed_to_others_witness :
    step ⟨[("r", ⟨some "a",
              [("a", ⟨0, "Al"⟩), ("b", ⟨1, "Bo"⟩), ("c", ⟨2, "Ce"⟩)]⟩)],
           [(0, ⟨some "r", some "a", true⟩), (1, ⟨some "r", some "b", true⟩),
            (2, ⟨some "r", some "c", true⟩)]⟩
        (.msg 1 (some ({ emptyFrame with
          type := some "seek", time := some 42, clientId := some "zzz" }))) =
      (⟨[("r", ⟨some "a",
            [("a", ⟨0, "Al"⟩), ("b", ⟨1, "Bo"⟩), ("c", ⟨2, "Ce"⟩)]⟩)],
         [(0, ⟨some "r", some "a", true⟩), (1, ⟨some "r", some "b", true⟩),
          (2, ⟨some "r", some "c", true⟩)]⟩,
       [("a", (⟨0, "Al"⟩ : ClientInfo)), ("b", ⟨1, "Bo"⟩),
        ("c", ⟨2, "Ce"⟩)].filterMap (fun p =>
          if p.1 = "b" then none
          else some (p.2.conn, OutMsg.forward ({ emptyFrame with
            type := some "seek", time := some 42, clientId := some "b" })))) :=
  C5_transport_relayed_to_others
    ⟨[("r", ⟨some "a", [("a", ⟨0, "Al"⟩), ("b", ⟨1, "Bo"⟩), ("c", ⟨2, "Ce"⟩)]⟩)],
     [(0, ⟨some "r", some "a", true⟩), (1, ⟨some "r", some "b", true⟩),
      (2, ⟨some "r", some "c", true⟩)]⟩
    1 "r" "b" ⟨some "a", [("a", ⟨0, "Al"⟩), ("b", ⟨1, "Bo"⟩), ("c", ⟨2, "Ce"⟩)]⟩
    ({ emptyFrame with type := some "seek", time := some 42, clientId := some "zzz" })
    (by decide) (by decide) (by decide) (by decide) (by decide)

namespace SyncRelay

theorem clients_joinedRoom (s : ServerState) (c : Nat) (room cid un : String) :
    (joinedRoom s c room cid un).clients =
      insertAssoc ((lookupAssoc s.rooms room).getD ⟨none, []⟩).clients cid ⟨c, un⟩ := by
  unfold joinedRoom
  dsimp only
  split <;> rfl

end SyncRelay

open SyncRelay in
/-- C6: for every processed join of client `cid` (with the joined room
captured as `r2`), the sends are: the `host` reply to the joiner, then
`user-joined` to every current member except the joiner, then the presence
snapshot to every current member including the joiner. -/
theorem C6_join_broadcast_targets (s : ServerState) (c : Nat) (code cid u : String)
    (r2 : Room)
    (hcode : code ≠ "") (hcid : cid ≠ "")
    (hopen : (getConn s c).isOpen = true)
    (hopenOld : ∀ p ∈ ((lookupAssoc s.rooms code).getD ⟨none, []⟩).clients,
        (getConn s p.2.conn).isOpen = true)
    (hr2 : joinedRoom (setConn s c code cid) c code cid (joinUsername (some u) cid) = r2) :
    (step s (.msg c (some (joinFrame code cid u)))).2 =
      (c, OutMsg.host (decide (r2.hostId = some cid)))
        :: (r2.clients.filterMap (fun p =>
              if p.1 = cid then none
              else some (p.2.conn, OutMsg.userJoined cid (joinUsername (some u) cid)))
          ++ r2.clients.map (fun p =>
              (p.2.conn, OutMsg.presence (snapshotParticipants r2) (jsOrNull r2.hostId)))) := by
  have hty : truthyS (joinFrame code cid u).type = true := by
    simp [joinFrame, emptyFrame, truthyS]
  have hj : (joinFrame code cid u).type = some "join"
      ∧ truthyS (joinFrame code cid u).room = true
      ∧ truthyS (joinFrame code cid u).clientId = true := by
    simp [joinFrame, emptyFrame, truthyS, hcode, hcid]
  have h1 : step s (.msg c (some (joinFrame code cid u))) =
      handleMessage s c (some (joinFrame code cid u)) := by
    simp [step, hopen]
  have hme : handleMessage s c (some (joinFrame code cid u)) =
      handleJoin s c (joinFrame code cid u) := by
    simp only [handleMessage]
    rw [if_pos hty, if_pos hj]
  rw [h1, hme]
  simp only [handleJoin, joinFrame, emptyFrame, Option.getD_some, rooms_setConn]
  simp only [hr2]
  have hlook : lookupAssoc
      ((⟨insertAssoc s.rooms code r2, (setConn s c code cid).conns⟩ : ServerState)).rooms
      code = some r2 := lookupAssoc_insertAssoc_self _ _ _
  have hopen2 : ∀ p ∈ r2.clients,
      (getConn (⟨insertAssoc s.rooms code r2,
        (setConn s c code cid).conns⟩ : ServerState) p.2.conn).isOpen = true := by
    intro p hp
    have hg : getConn (⟨insertAssoc s.rooms code r2,
        (setConn s c code cid).conns⟩ : ServerState) p.2.conn
        = getConn (setConn s c code cid) p.2.conn := rfl
    rw [hg, isOpen_getConn_setConn]
    rw [← hr2, clients_joinedRoom, rooms_setConn] at hp
    rcases mem_insertAssoc hp with hp | hp
    · rw [hp]
      exact hopen
    · exact hopenOld p hp
  rw [broadcastToRoom_all_open (OutMsg.userJoined cid (joinUsername (some u) cid)) cid
        hlook hopen2]
  rw [presenceSends_all_open hlook hopen2]

open SyncRelay in
/-- Witness for C6: "b" joins the room of "a"; "a" alone gets
`user-joined`, both get the presence snapshot, and "b" gets `host` with
isHost = false. -/
theorem C6_join_broadcast_targets_witness :
    (step ⟨[("r", ⟨some "a", [("a", ⟨0, "Al"⟩)]⟩)],
           [(0, ⟨some "r", some "a", true⟩)]⟩
        (.msg 1 (some (joinFrame "r" "b" "Bo")))).2 =
      (1, OutMsg.host (decide
          ((⟨some "a", [("a", ⟨0, "Al"⟩), ("b", ⟨1, "Bo"⟩)]⟩ : Room).hostId = some "b")))
        :: ((⟨some "a", [("a", ⟨0, "Al"⟩), ("b", ⟨1, "Bo"⟩)]⟩ : Room).clients.filterMap
              (fun p => if p.1 = "b" then none
                else some (p.2.conn, OutMsg.userJoined "b" (joinUsername (some "Bo") "b")))
          ++ (⟨some "a", [("a", ⟨0, "Al"⟩), ("b", ⟨1, "Bo"⟩)]⟩ : Room).clients.map
              (fun p => (p.2.conn,
                OutMsg.presence
                  (snapshotParticipants ⟨some "a", [("a", ⟨0, "Al"⟩), ("b", ⟨1, "Bo"⟩)]⟩)
                  (jsOrNull (⟨some "a", [("a", ⟨0, "Al"⟩), ("b", ⟨1, "Bo"⟩)]⟩ : Room).hostId)))) :=
  C6_join_broadcast_targets
    ⟨[("r", ⟨some "a", [("a", ⟨0, "Al"⟩)]⟩)], [(0, ⟨some "r", some "a", true⟩)]⟩
    1 "r" "b" "Bo" ⟨some "a", [("a", ⟨0, "Al"⟩), ("b", ⟨1, "Bo"⟩)]⟩
    (by decide) (by decide) (by decide) (by decide) (by decide)

namespace SyncRelay

theorem handleJoin_fst (s : ServerState) (c : Nat) (data : Frame) :
    (handleJoin s c data).1 =
      ⟨insertAssoc s.rooms (data.room.getD "")
          (joinedRoom (setConn s c (data.room.getD "") (data.clientId.getD "")) c
            (data.room.getD "") (data.clientId.getD "")
            (joinUsername data.username (data.clientId.getD ""))),
        (setConn s c (data.room.getD "") (data.clientId.getD "")).conns⟩ := rfl

theorem joinedRoom_fresh {s : ServerState} {room : String}
    (hr : lookupAssoc s.rooms room = none) (c : Nat) (cid un : String) :
    joinedRoom s c room cid un = ⟨some cid, [(cid, ⟨c, un⟩)]⟩ := by
  unfold joinedRoom
  rw [hr]
  simp [truthyS, insertAssoc]

theorem hostId_after_msg {s : ServerState} {code h : String} {r : Room}
    (hr : lookupAssoc s.rooms code = some r) (hh : r.hostId = some h) (hne : h ≠ "")
    (c : Nat) (fr : Option Frame) :
    ∃ r', lookupAssoc ((step s (.msg c fr)).1).rooms code = some r'
      ∧ r'.hostId = some h := by
  cases hopen : (getConn s c).isOpen
  · refine ⟨r, ?_, hh⟩
    simp [step, hopen, hr]
  · simp only [step, hopen, if_true]
    cases fr with
    | none => exact ⟨r, hr, hh⟩
    | some data =>
        by_cases hj : data.type = some "join" ∧ truthyS data.room = true
            ∧ truthyS data.clientId = true
        · have hty : truthyS data.type = true := by
            rw [hj.1]
            simp [truthyS]
          have hme : handleMessage s c (some data) = handleJoin s c data := by
            simp only [handleMessage]
            rw [if_pos hty, if_pos hj]
          rw [hme, handleJoin_fst]
          by_cases hcode : data.room.getD "" = code
          · have hlk : lookupAssoc
                (setConn s c (data.room.getD "") (data.clientId.getD "")).rooms
                (data.room.getD "") = some r := by
              rw [rooms_setConn, hcode, hr]
            refine ⟨⟨r.hostId,
              insertAssoc r.clients (data.clientId.getD "")
                ⟨c, joinUsername data.username (data.clientId.getD "")⟩⟩, ?_, ?_⟩
            · have hjr : joinedRoom
                  (setConn s c (data.room.getD "") (data.clientId.getD "")) c
                  (data.room.getD "") (data.clientId.getD "")
                  (joinUsername data.username (data.clientId.getD "")) =
                  ⟨r.hostId, insertAssoc r.clients (data.clientId.getD "")
                    ⟨c, joinUsername data.username (data.clientId.getD "")⟩⟩ := by
                unfold joinedRoom
                rw [hlk]
                simp only [Option.getD_some]
                rw [if_pos (by simp [hh, truthyS, hne])]
              rw [hjr, hcode]
              exact lookupAssoc_insertAssoc_self _ _ _
            · exact hh
          · refine ⟨r, ?_, hh⟩
            have hne2 : code ≠ data.room.getD "" := fun he => hcode he.symm
            rw [show (⟨insertAssoc s.rooms (data.room.getD "")
                (joinedRoom (setConn s c (data.room.getD "") (data.clientId.getD "")) c
                  (data.room.getD "") (data.clientId.getD "")
                  (joinUsername data.username (data.clientId.getD ""))),
                (setConn s c (data.room.getD "") (data.clientId.getD "")).conns⟩ :
                ServerState).rooms = insertAssoc s.rooms (data.room.getD "") _ from rfl]
            rw [lookupAssoc_insertAssoc_ne _ _ _ _ hne2]
            exact hr
        · rw [fst_handleMessage_nonjoin s c data hj]
          exact ⟨r, hr, hh⟩

theorem hostId_after_msgs {code h : String} (es : List Event)
    (hmsg : ∀ e ∈ es, ∃ c fr, e = Event.msg c fr) :
    ∀ (s : ServerState) (r : Room), lookupAssoc s.rooms code = some r →
      r.hostId = some h → h ≠ "" →
      ∃ r', lookupAssoc ((applyEvents s es).rooms) code = some r'
        ∧ r'.hostId = some h := by
  induction es with
  | nil => exact fun s r hr hh _ => ⟨r, hr, hh⟩
  | cons e t ih =>
      intro s r hr hh hne
      obtain ⟨c, fr, rfl⟩ := hmsg e (List.mem_cons_self _ _)
      obtain ⟨r', hr', hh'⟩ := hostId_after_msg hr hh hne c fr
      have := ih (fun e he => hmsg e (List.mem_cons_of_mem _ he))
        (step s (.msg c fr)).1 r' hr' hh' hne
      simpa [applyEvents] using this

end SyncRelay

open SyncRelay in
/-- C2: joining a previously-unknown room code makes the first joiner host
— the `host` reply at the head of the join's sends says isHost = true —
and after any further sequence of joins into that room (none of them a
disconnect of the first joiner) the room's hostId is still the first
joiner's clientId. -/
theorem C2_first_joiner_is_host (s : ServerState) (code : String) (c1 : Nat)
    (cid1 u1 : String) (rest : List (Nat × String × String))
    (hfresh : lookupAssoc s.rooms code = none)
    (hcode : code ≠ "") (hcid1 : cid1 ≠ "")
    (hopen1 : (getConn s c1).isOpen = true) :
    (step s (joinEv code (c1, cid1, u1))).2.head? = some (c1, OutMsg.host true)
    ∧ ∃ r, lookupAssoc
        ((applyEvents s (joinEv code (c1, cid1, u1) :: rest.map (joinEv code))).rooms)
          code = some r
      ∧ r.hostId = some cid1 := by
  have hty : truthyS (joinFrame code cid1 u1).type = true := by
    simp [joinFrame, emptyFrame, truthyS]
  have hj : (joinFrame code cid1 u1).type = some "join"
      ∧ truthyS (joinFrame code cid1 u1).room = true
      ∧ truthyS (joinFrame code cid1 u1).clientId = true := by
    simp [joinFrame, emptyFrame, truthyS, hcode, hcid1]
  have h1 : step s (joinEv code (c1, cid1, u1)) =
      handleMessage s c1 (some (joinFrame code cid1 u1)) := by
    simp [step, joinEv, hopen1]
  have hme : handleMessage s c1 (some (joinFrame code cid1 u1)) =
      handleJoin s c1 (joinFrame code cid1 u1) := by
    simp only [handleMessage]
    rw [if_pos hty, if_pos hj]
  have hfr : lookupAssoc (setConn s c1 code cid1).rooms code = none := by
    rw [rooms_setConn]
    exact hfresh
  have hjr := joinedRoom_fresh hfr c1 cid1 (joinUsername (some u1) cid1)
  have hstate : lookupAssoc ((step s (joinEv code (c1, cid1, u1))).1).rooms code =
      some ⟨some cid1, [(cid1, ⟨c1, joinUsername (some u1) cid1⟩)]⟩ := by
    rw [h1, hme, handleJoin_fst]
    simp only [joinFrame, emptyFrame, Option.getD_some]
    rw [hjr]
    exact lookupAssoc_insertAssoc_self _ _ _
  have hmsg : ∀ e ∈ rest.map (joinEv code), ∃ c fr, e = Event.msg c fr := by
    intro e he
    rcases List.mem_map.mp he with ⟨j, -, rfl⟩
    exact ⟨j.1, some (joinFrame code j.2.1 j.2.2), rfl⟩
  constructor
  · rw [h1, hme]
    simp only [handleJoin, joinFrame, emptyFrame, Option.getD_some]
    simp only [hjr]
    simp
  · have hrun := hostId_after_msgs (rest.map (joinEv code)) hmsg
      ((step s (joinEv code (c1, cid1, u1))).1) _ hstate rfl hcid1
    simpa [applyEvents] using hrun

open SyncRelay in
/-- Witness for C2: "a" joins fresh room "54321" (reply head is
host:true), then "b" and "c" join; the hostId is still "a". -/
theorem C2_first_joiner_is_host_witness :
    (step initState (joinEv "54321" (0, "a", "Al"))).2.head? =
        some (0, OutMsg.host true)
    ∧ ∃ r, lookupAssoc
        ((applyEvents initState
            (joinEv "54321" (0, "a", "Al")
              :: [(1, "b", "Bo"), (2, "c", "Ce")].map (joinEv "54321"))).rooms)
          "54321" = some r
      ∧ r.hostId = some "a" :=
  C2_first_joiner_is_host initState "54321" 0 "a" "Al" [(1, "b", "Bo"), (2, "c", "Ce")]
    (by decide) (by decide) (by decide) (by decide)

open SyncRelay in
/-- Witness for C9: unparseable input and an unknown type "bogus" are both
absorbed with no state change and no sends. -/
theorem C9_invalid_frames_are_dropped_witness :
    step initState (.msg 0 none) = (initState, [])
    ∧ step initState (.msg 0 (some ({ emptyFrame with type := some "bogus" }))) =
        (initState, []) :=
  ⟨(C9_invalid_frames_are_dropped initState 0
      ({ emptyFrame with type := some "bogus" })).1,
   (C9_invalid_frames_are_dropped initState 0
      ({ emptyFrame with type := some "bogus" })).2.2 (by decide)⟩

open SyncRelay in
/-- Witness for C10: two seeks from the same joined connection differing
only in their spoofed clientId fields produce identical results. -/
theorem C10_forward_uses_registered_clientId_witness :
    step ⟨[("r", ⟨some "a",
              [("a", ⟨0, "Al"⟩), ("b", ⟨1, "Bo"⟩), ("c", ⟨2, "Ce"⟩)]⟩)],
           [(0, ⟨some "r", some "a", true⟩), (1, ⟨some "r", some "b", true⟩),
            (2, ⟨some "r", some "c", true⟩)]⟩
        (.msg 1 (some ({ emptyFrame with
          type := some "seek", time := some 42, clientId := some "x" }))) =
      step ⟨[("r", ⟨some "a",
              [("a", ⟨0, "Al"⟩), ("b", ⟨1, "Bo"⟩), ("c", ⟨2, "Ce"⟩)]⟩)],
           [(0, ⟨some "r", some "a", true⟩), (1, ⟨some "r", some "b", true⟩),
            (2, ⟨some "r", some "c", true⟩)]⟩
        (.msg 1 (some ({ emptyFrame with
          type := some "seek", time := some 42, clientId := some "y" }))) :=
  (C10_forward_uses_registered_clientId
    ⟨[("r", ⟨some "a", [("a", ⟨0, "Al"⟩), ("b", ⟨1, "Bo"⟩), ("c", ⟨2, "Ce"⟩)]⟩)],
     [(0, ⟨some "r", some "a", true⟩), (1, ⟨some "r", some "b", true⟩),
      (2, ⟨some "r", some "c", true⟩)]⟩
    1
    ({ emptyFrame with type := some "seek", time := some 42, clientId := some "x" })
    ({ emptyFrame with type := some "seek", time := some 42, clientId := some "y" })
    (by decide) (by decide)).1
